import Mathlib

/-!
# remap-copilot: the event loop and the delayed release of `src/main.c`

A shallow embedding of the event-translation loop of `main` and of the three
scheduler functions `delayed_release_thread`, `schedule_delayed_release` and
`cancel_delayed_release`, followed by the properties proved about them.

Modelling conventions.

* The file-scope variables `key_state`, `release_pending` and `release_thread`
  become fields of `State`.  `sink` is the sequence of events handed to
  `libevdev_uinput_write_event` since the event loop was entered (the start-up
  flush of `clear_keyboard_state` precedes the loop and is not recorded), each
  stamped with the instant of the write.
* Time is counted in milliseconds.  A timer thread is an entry of `sleeping`
  carrying the instant at which its `nanosleep` returns.  The part of
  `delayed_release_thread` that follows `nanosleep` is one atomic step
  (`delayed_release_thread`): `release_mutex` makes it atomic with respect to
  the critical sections of `schedule_delayed_release` and
  `cancel_delayed_release`.  The window between the return of `nanosleep` and
  the acquisition of the mutex is not modelled.
* `pthread_cancel` followed by `pthread_join` removes the thread from
  `sleeping`; on a thread that has already finished it does nothing.
* The outcome of `pthread_create` is an input of the loop iteration
  (`created`); thread handles are taken from the counter `next_tid`, starting
  at 1, so a handle is never `0`.
* `calls` is a record, kept for the statements only, of the calls the event
  loop and the shutdown sequence make into the scheduler, each with the value
  `release_pending` had when the call was made.
* Key codes and event types are those of `linux/input-event-codes.h`.
-/

namespace RemapCopilot

/-! ## Constants -/

/-- Event type `EV_SYN` of `linux/input-event-codes.h`. -/
def EV_SYN : Nat := 0
/-- Event type `EV_KEY` of `linux/input-event-codes.h`. -/
def EV_KEY : Nat := 1
/-- Event code `SYN_REPORT` of `linux/input-event-codes.h`. -/
def SYN_REPORT : Nat := 0
/-- Key code `KEY_LEFTSHIFT` of `linux/input-event-codes.h`. -/
def KEY_LEFTSHIFT : Nat := 42
/-- Key code `KEY_RIGHTCTRL` of `linux/input-event-codes.h`. -/
def KEY_RIGHTCTRL : Nat := 97
/-- Key code `KEY_LEFTMETA` of `linux/input-event-codes.h`. -/
def KEY_LEFTMETA : Nat := 125
/-- Key code `KEY_F23` of `linux/input-event-codes.h`. -/
def KEY_F23 : Nat := 193

/-- `#define DEFAULT_DELAY_MS 300`. -/
def DEFAULT_DELAY_MS : Nat := 300
/-- `#define KEY_PRESSED 1`. -/
def KEY_PRESSED : Int := 1
/-- `#define KEY_RELEASED 0`. -/
def KEY_RELEASED : Int := 0
/-- `#define COPILOT_REPLACE_KEY KEY_RIGHTCTRL` (the default of the `#ifndef`). -/
def COPILOT_REPLACE_KEY : Nat := KEY_RIGHTCTRL

/-! ## Data model -/

/-- The fields of `struct input_event` that the program reads and writes:
`type` and `code` are `__u16`, `value` is `__s32`. -/
structure InputEvent where
  type : Nat
  code : Nat
  value : Int
  deriving DecidableEq, Repr

/-- The bit-field struct `key_state`. -/
structure KeyState where
  meta_pressed : Bool
  shift_pressed : Bool
  copilot_active : Bool
  deriving DecidableEq, Repr

/-- A timer thread inside `nanosleep`: its handle and the instant (ms) at which
the sleep ends. -/
structure Thread where
  tid : Nat
  wake : Nat
  deriving DecidableEq, Repr

/-- A call into the scheduler, with the value of `release_pending` at the call. -/
inductive Call where
  | cancel (pending : Bool)
  | schedule (pending : Bool)
  deriving DecidableEq, Repr

/-- The state of the program while the event loop runs. -/
structure State where
  key_state : KeyState
  release_pending : Bool
  release_thread : Nat
  sleeping : List Thread
  next_tid : Nat
  clock : Nat
  sink : List (Nat × InputEvent)
  calls : List Call
  deriving DecidableEq, Repr

/-- The state in which the event loop is entered: `key_state = {false}`,
`release_pending = 0`, `release_thread = 0`, no timer thread. -/
def init : State :=
  { key_state := { meta_pressed := false, shift_pressed := false, copilot_active := false }
    release_pending := false
    release_thread := 0
    sleeping := []
    next_tid := 1
    clock := 0
    sink := []
    calls := [] }

/-! ## Collaborators: the output sink and the thread library -/

/-- `libevdev_uinput_write_event(uidev, type, code, value)`: the event is
appended to the sink, stamped with the current instant. -/
def libevdev_uinput_write_event (type code : Nat) (value : Int) (s : State) : State :=
  { s with sink := s.sink ++ [(s.clock, { type := type, code := code, value := value })] }

/-- `pthread_cancel(t); pthread_join(t, NULL)`: a thread still inside
`nanosleep` (a cancellation point) is removed; nothing else changes. -/
def pthread_cancel_join (t : Nat) (s : State) : State :=
  { s with sleeping := s.sleeping.filter (fun th => th.tid != t) }

/-- The `struct timespec` computed by `delayed_release_thread` from the
`unsigned int delay_ms`: `(tv_sec, tv_nsec)`, the product being taken in
32-bit unsigned arithmetic. -/
def timespec_of (delay_ms : Nat) : Nat × Nat :=
  (delay_ms / 1000, ((delay_ms % 1000) * 1000000) % 2 ^ 32)

/-- The length in milliseconds of the interval a `struct timespec` denotes. -/
def timespec_ms (ts : Nat × Nat) : Nat :=
  ts.1 * 1000 + ts.2 / 1000000

/-- `pthread_create(&release_thread, NULL, delayed_release_thread, data)` when
it succeeds: a fresh handle is stored into `release_thread` and the new thread
enters `nanosleep` for the interval computed from `data->delay_ms`. -/
def pthread_create (delay_ms : Nat) (s : State) : State :=
  { s with
    release_thread := s.next_tid
    sleeping := s.sleeping ++
      [{ tid := s.next_tid, wake := s.clock + timespec_ms (timespec_of delay_ms) }]
    next_tid := s.next_tid + 1 }

/-! ## The scheduler -/

/-- `delayed_release_thread`, from the return of `nanosleep` on, for the thread
with handle `t`: under the mutex, if a release is pending, the release of the
replacement key and a `SYN_REPORT` are written and the flag is cleared.  A
handle that names no sleeping thread leaves the state unchanged. -/
def delayed_release_thread (t : Nat) (s : State) : State :=
  match s.sleeping.find? (fun th => th.tid == t) with
  | none => s
  | some th =>
    let s := { s with
      sleeping := s.sleeping.filter (fun x => x.tid != t)
      clock := max s.clock th.wake }
    if s.release_pending then
      let s := libevdev_uinput_write_event EV_KEY COPILOT_REPLACE_KEY 0 s
      let s := libevdev_uinput_write_event EV_SYN SYN_REPORT 0 s
      { s with release_pending := false }
    else s

/-- `schedule_delayed_release(uidev, delay_ms)`; `created` tells whether
`pthread_create` succeeds.  When it fails no thread exists, `release_thread`
keeps its value and `release_pending` is reset. -/
def schedule_delayed_release (delay_ms : Nat) (created : Bool) (s : State) : State :=
  let s := if s.release_pending && s.release_thread != 0 then
      pthread_cancel_join s.release_thread s
    else s
  let s := { s with release_pending := true }
  if created then pthread_create delay_ms s
  else { s with release_pending := false }

/-- `cancel_delayed_release()`. -/
def cancel_delayed_release (s : State) : State :=
  if s.release_pending && s.release_thread != 0 then
    let s := pthread_cancel_join s.release_thread s
    { s with release_pending := false }
  else s

/-- Ghost step: the call `c` into the scheduler is recorded. -/
def record (c : Call) (s : State) : State :=
  { s with calls := s.calls ++ [c] }

/-! ## The event loop -/

/-- The label `event_write:` of the loop body: the event read is written to the
sink with its own type, code and value. -/
def event_write (event : InputEvent) (s : State) : State :=
  libevdev_uinput_write_event event.type event.code event.value s

/-- One iteration of the `while (running)` loop of `main` in which
`libevdev_next_event` returned `LIBEVDEV_READ_STATUS_SUCCESS` with `event`. -/
def loop_iteration (delay_ms : Nat) (created : Bool) (event : InputEvent) (s : State) : State :=
  if event.type ≠ EV_KEY then event_write event s
  else if event.code = KEY_LEFTMETA then
    let s := { s with key_state :=
      { s.key_state with meta_pressed := decide (event.value ≠ KEY_RELEASED) } }
    if s.key_state.copilot_active then s else event_write event s
  else if event.code = KEY_LEFTSHIFT then
    let s := { s with key_state :=
      { s.key_state with shift_pressed := decide (event.value ≠ KEY_RELEASED) } }
    if s.key_state.copilot_active then s else event_write event s
  else if event.code = KEY_F23 then
    if s.key_state.meta_pressed && s.key_state.shift_pressed then
      if event.value = KEY_PRESSED then
        let s := cancel_delayed_release (record (Call.cancel s.release_pending) s)
        let s := libevdev_uinput_write_event EV_KEY COPILOT_REPLACE_KEY 1 s
        let s := libevdev_uinput_write_event EV_SYN SYN_REPORT 0 s
        { s with key_state := { s.key_state with copilot_active := true } }
      else if event.value = KEY_RELEASED then
        if s.key_state.copilot_active then
          let s := schedule_delayed_release delay_ms created
            (record (Call.schedule s.release_pending) s)
          { s with key_state := { s.key_state with copilot_active := false } }
        else s
      else s
    else event_write event s
  else event_write event s

/-- The validation of the delay argument (`-t`, `--delay`) in `main`: `v` is the `int`
returned by `atoi`, stored into the `uint delay_ms`; `Except.error` carries
the message of the `fail(...)` exit. -/
def parse_delay (v : Int) : Except String Nat :=
  let delay_ms : Nat := (v % 2 ^ 32).toNat
  if delay_ms < 0 ∨ delay_ms > 10000 then
    Except.error ("Error: Delay must be between 0 and 10000 ms\n")
  else Except.ok delay_ms

/-! ## Runs -/

/-- What can happen next: the loop reads an event (`created` is the outcome of
`pthread_create`, should the iteration call it), or the timer thread with
handle `tid` comes back from `nanosleep`. -/
inductive Action where
  | event (ev : InputEvent) (created : Bool)
  | expire (tid : Nat)
  deriving DecidableEq, Repr

/-- One action. -/
def step (delay_ms : Nat) (a : Action) (s : State) : State :=
  match a with
  | Action.event ev created => loop_iteration delay_ms created ev s
  | Action.expire tid => delayed_release_thread tid s

/-- A sequence of actions, in order. -/
def run (delay_ms : Nat) (acts : List Action) (s : State) : State :=
  acts.foldl (fun s a => step delay_ms a s) s

/-- The loop processes the events `evs` in order, no timer expiring meanwhile
and every thread creation succeeding. -/
def process (delay_ms : Nat) (evs : List InputEvent) (s : State) : State :=
  evs.foldl (fun s ev => loop_iteration delay_ms true ev s) s

/-- Every timer thread whose sleep has ended by the instant `t` runs, at the
instant its sleep ended (timers are taken to be exact). -/
def fire_due (t : Nat) (s : State) : State :=
  (s.sleeping.filter (fun th => th.wake ≤ t)).foldl
    (fun s th => delayed_release_thread th.tid s) s

/-- The clock moves forward to `t`. -/
def set_clock (t : Nat) (s : State) : State :=
  { s with clock := max s.clock t }

/-- The event `te.2` is read at the instant `te.1`: the timers due by then
have fired, and thread creation succeeds. -/
def timed_step (delay_ms : Nat) (s : State) (te : Nat × InputEvent) : State :=
  loop_iteration delay_ms true te.2 (set_clock te.1 (fire_due te.1 s))

/-- A sequence of timed events, in order. -/
def run_timed (delay_ms : Nat) (evs : List (Nat × InputEvent)) (s : State) : State :=
  evs.foldl (timed_step delay_ms) s

/-- No more input: every timer thread still sleeping runs at the end of its sleep. -/
def let_timers_run (s : State) : State :=
  s.sleeping.foldl (fun s th => delayed_release_thread th.tid s) s

/-! ## Vocabulary of the statements -/

/-- A key event with the given code and value. -/
def key (code : Nat) (value : Int) : InputEvent :=
  { type := EV_KEY, code := code, value := value }

/-- The `SYN_REPORT` event. -/
def syn_report : InputEvent :=
  { type := EV_SYN, code := SYN_REPORT, value := 0 }

/-- The event is a key event with code `code`. -/
def is_key (code : Nat) (ev : InputEvent) : Bool :=
  ev.type == EV_KEY && ev.code == code

/-- The value of the last key event with code `code` in a sequence of written
events, if there is one. -/
def last_key_value (code : Nat) (w : List (Nat × InputEvent)) : Option Int :=
  ((w.map Prod.snd).filter (is_key code)).getLast?.map InputEvent.value

/-- The number of written events equal to `ev`. -/
def count_writes (ev : InputEvent) (w : List (Nat × InputEvent)) : Nat :=
  (w.map Prod.snd).count ev

/-- The loop iteration on `ev` in state `s` takes the chord-press branch:
an `F23` key event with value `KEY_PRESSED` while both modifiers are held. -/
def chord_press (s : State) (ev : InputEvent) : Bool :=
  is_key KEY_F23 ev && s.key_state.meta_pressed && s.key_state.shift_pressed &&
    decide (ev.value = KEY_PRESSED)

/-- No event of `evs`, processed in order from `s`, is a chord press. -/
def no_chord_press (delay_ms : Nat) : List InputEvent → State → Bool
  | [], _ => true
  | ev :: evs, s =>
    !chord_press s ev && no_chord_press delay_ms evs (loop_iteration delay_ms true ev s)

/-- The bookkeeping invariant of the scheduler: a pending release has exactly
one sleeping timer thread, the one `release_thread` names; without a pending
release no thread sleeps; the chord is never active while a release is
pending; handles are not `0`; and `schedule_delayed_release` was never called
with a release pending. -/
structure Inv (s : State) : Prop where
  pending_thread : s.release_pending = true →
    s.release_thread ≠ 0 ∧ ∃ w, s.sleeping = [{ tid := s.release_thread, wake := w }]
  idle_no_thread : s.release_pending = false → s.sleeping = []
  active_not_pending : s.key_state.copilot_active = true → s.release_pending = false
  next_tid_pos : s.next_tid ≠ 0
  schedule_fresh : ∀ c ∈ s.calls, c ≠ Call.schedule true

/-- The scheduler part of the state (pending flag, thread handle, sleeping
threads, handle counter, clock, recorded calls) is the same in `s` and `s'`. -/
def same_scheduler (s s' : State) : Prop :=
  s'.release_pending = s.release_pending ∧ s'.release_thread = s.release_thread ∧
    s'.sleeping = s.sleeping ∧ s'.next_tid = s.next_tid ∧ s'.clock = s.clock ∧
    s'.calls = s.calls

/-- The message of the `fail(...)` exit on a delay out of range. -/
def delay_error : String := "Error: Delay must be between 0 and 10000 ms\n"

/-! ## Lemmas on the collaborators and the scheduler -/

theorem timespec_ms_of (d : Nat) : timespec_ms (timespec_of d) = d := by
  unfold timespec_ms timespec_of
  simp only
  have h1 : d % 1000 < 1000 := Nat.mod_lt _ (by norm_num)
  have h2 : (d % 1000) * 1000000 % 2 ^ 32 = (d % 1000) * 1000000 := by
    apply Nat.mod_eq_of_lt
    have : (d % 1000) * 1000000 < 1000 * 1000000 := by omega
    norm_num at this ⊢
    omega
  rw [h2, Nat.mul_div_cancel _ (by norm_num : 0 < 1000000)]
  omega

theorem inv_init : Inv init := by
  constructor <;> simp [init]

theorem cancel_of_inv (s : State) (h : Inv s) :
    cancel_delayed_release s = { s with release_pending := false, sleeping := [] } := by
  unfold cancel_delayed_release pthread_cancel_join
  cases hp : s.release_pending with
  | false =>
    have := h.idle_no_thread hp
    cases s
    simp_all
  | true =>
    obtain ⟨h0, w, hw⟩ := h.pending_thread hp
    simp [h0, hw]

theorem schedule_of_inv (d : Nat) (s : State) (h : Inv s) (hp : s.release_pending = false) :
    schedule_delayed_release d true s =
      { s with
        release_pending := true
        release_thread := s.next_tid
        sleeping := [{ tid := s.next_tid, wake := s.clock + d }]
        next_tid := s.next_tid + 1 } := by
  have hs := h.idle_no_thread hp
  simp [schedule_delayed_release, pthread_create, hp, hs, timespec_ms_of]

theorem schedule_failed_of_inv (d : Nat) (s : State) (hp : s.release_pending = false) :
    schedule_delayed_release d false s = s := by
  cases s
  simp_all [schedule_delayed_release]

theorem inv_write (t c : Nat) (v : Int) (s : State) (h : Inv s) :
    Inv (libevdev_uinput_write_event t c v s) :=
  ⟨h.pending_thread, h.idle_no_thread, h.active_not_pending, h.next_tid_pos, h.schedule_fresh⟩

theorem inv_record (c : Call) (s : State) (h : Inv s) (hc : c ≠ Call.schedule true) :
    Inv (record c s) := by
  refine ⟨h.pending_thread, h.idle_no_thread, h.active_not_pending, h.next_tid_pos, ?_⟩
  intro x hx
  simp only [record, List.mem_append, List.mem_singleton] at hx
  rcases hx with hx | hx
  · exact h.schedule_fresh x hx
  · exact hx ▸ hc

theorem inv_set_keys (s : State) (k : KeyState) (h : Inv s)
    (hk : k.copilot_active = s.key_state.copilot_active) :
    Inv { s with key_state := k } :=
  ⟨h.pending_thread, h.idle_no_thread, fun ha => h.active_not_pending (hk ▸ ha),
    h.next_tid_pos, h.schedule_fresh⟩

theorem inv_cancel (s : State) (h : Inv s) : Inv (cancel_delayed_release s) := by
  rw [cancel_of_inv s h]
  exact ⟨by simp, by simp, by simp, h.next_tid_pos, h.schedule_fresh⟩

theorem inv_schedule (d : Nat) (created : Bool) (s : State) (k : KeyState) (h : Inv s)
    (hp : s.release_pending = false) (hk : k.copilot_active = false) :
    Inv { schedule_delayed_release d created s with key_state := k } := by
  cases created with
  | false =>
    rw [schedule_failed_of_inv d s hp]
    exact ⟨h.pending_thread, h.idle_no_thread, fun _ => hp, h.next_tid_pos, h.schedule_fresh⟩
  | true =>
    rw [schedule_of_inv d s h hp]
    refine ⟨?_, by simp, by simp [hk], by simp, h.schedule_fresh⟩
    intro _
    exact ⟨h.next_tid_pos, s.clock + d, rfl⟩

theorem inv_loop_iteration (d : Nat) (created : Bool) (ev : InputEvent) (s : State)
    (h : Inv s) : Inv (loop_iteration d created ev s) := by
  unfold loop_iteration
  dsimp only
  split_ifs with h1 h2 h3 h4 h5 h6 h7 h8 h9 h10
  all_goals first
    | exact inv_write _ _ _ _ h
    | exact h
    | exact inv_set_keys _ _ h rfl
    | exact inv_write _ _ _ _ (inv_set_keys _ _ h rfl)
    | skip
  · have hc := inv_cancel _ (inv_record (Call.cancel s.release_pending) s h (by simp))
    have hw := inv_write EV_SYN SYN_REPORT 0 _ (inv_write EV_KEY COPILOT_REPLACE_KEY 1 _ hc)
    refine ⟨hw.pending_thread, hw.idle_no_thread, fun _ => ?_, hw.next_tid_pos,
      hw.schedule_fresh⟩
    rw [cancel_of_inv _ (inv_record (Call.cancel s.release_pending) s h (by simp))]
    rfl
  · have hact : s.key_state.copilot_active = true := by assumption
    have hp := h.active_not_pending hact
    exact inv_schedule d created _ _
      (inv_record (Call.schedule s.release_pending) s h (by simp [hp])) hp rfl

theorem inv_thread (t : Nat) (s : State) (h : Inv s) : Inv (delayed_release_thread t s) := by
  unfold delayed_release_thread
  split
  · exact h
  · rename_i th hf
    cases hp : s.release_pending with
    | false =>
      have := h.idle_no_thread hp
      simp [this] at hf
    | true =>
      obtain ⟨h0, w, hw⟩ := h.pending_thread hp
      have ht : s.release_thread = t := by
        rw [hw] at hf
        simp at hf
        exact hf.1
      refine ⟨by simp [hp, libevdev_uinput_write_event], ?_, ?_, h.next_tid_pos, ?_⟩
      · intro _
        simp [hp, libevdev_uinput_write_event, hw, ht]
      · intro _
        simp [hp, libevdev_uinput_write_event]
      · simpa [hp, libevdev_uinput_write_event] using h.schedule_fresh

theorem inv_step (d : Nat) (a : Action) (s : State) (h : Inv s) : Inv (step d a s) := by
  cases a with
  | event ev created => exact inv_loop_iteration d created ev s h
  | expire t => exact inv_thread t s h

theorem inv_run (d : Nat) (acts : List Action) (s : State) (h : Inv s) :
    Inv (run d acts s) := by
  induction acts generalizing s with
  | nil => exact h
  | cons a acts ih => exact ih _ (inv_step d a s h)

theorem inv_process (d : Nat) (evs : List InputEvent) (s : State) (h : Inv s) :
    Inv (process d evs s) := by
  induction evs generalizing s with
  | nil => exact h
  | cons e evs ih => exact ih _ (inv_loop_iteration d true e s h)

/-! ## The chord press, the chord release and the timer, under the invariant -/

theorem press_of_inv (d : Nat) (created : Bool) (s : State) (h : Inv s)
    (hm : s.key_state.meta_pressed = true) (hs : s.key_state.shift_pressed = true) :
    loop_iteration d created (key KEY_F23 KEY_PRESSED) s =
      { s with
        key_state := { s.key_state with copilot_active := true }
        release_pending := false
        sleeping := []
        sink := s.sink ++ [(s.clock, key KEY_RIGHTCTRL 1), (s.clock, syn_report)]
        calls := s.calls ++ [Call.cancel s.release_pending] } := by
  have hr := inv_record (Call.cancel s.release_pending) s h (by simp)
  unfold loop_iteration
  dsimp only
  rw [cancel_of_inv _ hr]
  simp [key, hm, hs, EV_KEY, KEY_F23, KEY_LEFTMETA, KEY_LEFTSHIFT, KEY_PRESSED, record,
    libevdev_uinput_write_event, COPILOT_REPLACE_KEY, syn_report]

theorem release_of_inv (d : Nat) (s : State) (h : Inv s)
    (hm : s.key_state.meta_pressed = true) (hs : s.key_state.shift_pressed = true)
    (ha : s.key_state.copilot_active = true) :
    loop_iteration d true (key KEY_F23 KEY_RELEASED) s =
      { s with
        key_state := { s.key_state with copilot_active := false }
        release_pending := true
        release_thread := s.next_tid
        sleeping := [{ tid := s.next_tid, wake := s.clock + d }]
        next_tid := s.next_tid + 1
        calls := s.calls ++ [Call.schedule false] } := by
  have hp := h.active_not_pending ha
  have hr := inv_record (Call.schedule s.release_pending) s h (by simp [hp])
  unfold loop_iteration
  dsimp only
  rw [schedule_of_inv d _ hr hp]
  simp [key, hm, hs, ha, hp, EV_KEY, KEY_F23, KEY_LEFTMETA, KEY_LEFTSHIFT, KEY_PRESSED,
    KEY_RELEASED, record]

theorem thread_fires (s : State) (t w : Nat) (hp : s.release_pending = true)
    (hs : s.sleeping = [{ tid := t, wake := w }]) :
    delayed_release_thread t s =
      { s with
        release_pending := false
        sleeping := []
        clock := max s.clock w
        sink := s.sink ++
          [(max s.clock w, key KEY_RIGHTCTRL 0), (max s.clock w, syn_report)] } := by
  simp [delayed_release_thread, hs, hp, libevdev_uinput_write_event, key, syn_report,
    COPILOT_REPLACE_KEY]

theorem last_key_value_append (c : Nat) (w : List (Nat × InputEvent)) (x : Nat × InputEvent) :
    last_key_value c (w ++ [x]) =
      if is_key c x.2 then some x.2.value else last_key_value c w := by
  unfold last_key_value
  by_cases hx : is_key c x.2 = true
  · simp [hx, List.filter_append, List.filter_cons]
  · simp [hx, List.filter_append, List.filter_cons]

theorem last_key_value_append_pair (c : Nat) (w : List (Nat × InputEvent))
    (x y : Nat × InputEvent) :
    last_key_value c (w ++ [x, y]) =
      if is_key c y.2 then some y.2.value
      else if is_key c x.2 then some x.2.value else last_key_value c w := by
  have : w ++ [x, y] = (w ++ [x]) ++ [y] := by simp
  rw [this, last_key_value_append, last_key_value_append]

/-! ## The sink invariant -/

theorem loop_quiet (d : Nat) (created : Bool) (ev : InputEvent) (s : State)
    (ha : s.key_state.copilot_active = false) (hc : chord_press s ev = false) :
    (loop_iteration d created ev s).key_state.copilot_active = false ∧
      same_scheduler s (loop_iteration d created ev s) := by
  unfold same_scheduler loop_iteration
  dsimp only
  split_ifs with h1 h2 h3 h4 h5 h6 h7 h8 h9 h10
  all_goals first
    | simp [event_write, libevdev_uinput_write_event, ha]; done
    | skip
  all_goals simp_all [chord_press, is_key]

theorem loop_no_f23 (d : Nat) (created : Bool) (ev : InputEvent) (s : State)
    (ha : s.key_state.copilot_active = false) (hev : is_key KEY_F23 ev = false) :
    (loop_iteration d created ev s).sink = s.sink ++ [(s.clock, ev)] := by
  unfold loop_iteration
  dsimp only
  split_ifs with h1 h2 h3 h4 h5 h6 h7 h8 h9 h10
  all_goals first
    | simp [event_write, libevdev_uinput_write_event, ha]; done
    | skip
  all_goals simp_all [is_key]

theorem process_no_f23 (d : Nat) (evs : List InputEvent) (s : State)
    (ha : s.key_state.copilot_active = false) (hev : ∀ ev ∈ evs, is_key KEY_F23 ev = false) :
    (process d evs s).sink = s.sink ++ evs.map (fun ev => (s.clock, ev)) ∧
      (process d evs s).key_state.copilot_active = false ∧
      same_scheduler s (process d evs s) := by
  induction evs generalizing s with
  | nil => simp [process, ha, same_scheduler]
  | cons e evs ih =>
    have he : is_key KEY_F23 e = false := hev e (by simp)
    have hc : chord_press s e = false := by simp [chord_press, he]
    obtain ⟨h1, h2⟩ := loop_quiet d true e s ha hc
    have h3 := loop_no_f23 d true e s ha he
    obtain ⟨i1, i2, i3⟩ := ih (loop_iteration d true e s) h1
      (fun ev hm => hev ev (List.mem_cons_of_mem _ hm))
    obtain ⟨p1, p2, p3, p4, p5, p6⟩ := h2
    obtain ⟨q1, q2, q3, q4, q5, q6⟩ := i3
    refine ⟨?_, i2, ?_⟩
    · show (process d evs (loop_iteration d true e s)).sink = _
      rw [i1, h3, p5]
      simp
    · exact ⟨q1.trans p1, q2.trans p2, q3.trans p3, q4.trans p4, q5.trans p5, q6.trans p6⟩

/-! ## C1: chord detection -/

/-- Counterexample to C3: after `LeftMeta` Pressed, `LeftShift` Pressed, `F23`
Pressed and `LeftMeta` Released the chord is still active, and the `F23`
Released event that follows is written raw to the sink. -/
theorem C3_counterexample :
    (process 300 [key KEY_LEFTMETA 1, key KEY_LEFTSHIFT 1, key KEY_F23 1, key KEY_LEFTMETA 0]
        init).key_state.copilot_active = true ∧
      (loop_iteration 300 true (key KEY_F23 0)
        (process 300 [key KEY_LEFTMETA 1, key KEY_LEFTSHIFT 1, key KEY_F23 1,
          key KEY_LEFTMETA 0] init)).sink =
        (process 300 [key KEY_LEFTMETA 1, key KEY_LEFTSHIFT 1, key KEY_F23 1,
          key KEY_LEFTMETA 0] init).sink ++ [(0, key KEY_F23 0)] := by
  decide

/-- C3, amended: while `copilot_active` is true, a `LeftMeta` or `LeftShift`
key event writes nothing; an `F23` key event read while both modifiers are held
writes no raw event (only `[RightCtrl = 1, SYN_REPORT]` when its value is
Pressed, nothing otherwise); an `F23` key event read while a modifier is not
held is written unchanged; a key event with any other code is written
unchanged. -/
theorem C3_suppression (delay_ms : Nat) (created : Bool) (s : State) (ev : InputEvent)
    (hact : s.key_state.copilot_active = true) (hkey : ev.type = EV_KEY) :
    (ev.code = KEY_LEFTMETA ∨ ev.code = KEY_LEFTSHIFT →
      (loop_iteration delay_ms created ev s).sink = s.sink) ∧
    (ev.code = KEY_F23 → s.key_state.meta_pressed = true → s.key_state.shift_pressed = true →
      ∃ ws, (loop_iteration delay_ms created ev s).sink = s.sink ++ ws ∧
        ws = (if ev.value = KEY_PRESSED then
          [(s.clock, key KEY_RIGHTCTRL 1), (s.clock, syn_report)] else []) ∧
        ∀ w ∈ ws,
          w.2.code ≠ KEY_LEFTMETA ∧ w.2.code ≠ KEY_LEFTSHIFT ∧ w.2.code ≠ KEY_F23) ∧
    (ev.code = KEY_F23 →
      ¬ (s.key_state.meta_pressed = true ∧ s.key_state.shift_pressed = true) →
      (loop_iteration delay_ms created ev s).sink = s.sink ++ [(s.clock, ev)]) ∧
    (ev.code ≠ KEY_LEFTMETA → ev.code ≠ KEY_LEFTSHIFT → ev.code ≠ KEY_F23 →
      (loop_iteration delay_ms created ev s).sink = s.sink ++ [(s.clock, ev)]) := by
  obtain ⟨t, c, v⟩ := ev
  simp only at hkey
  subst hkey
  refine ⟨?_, ?_, ?_, ?_⟩
  · intro hc
    unfold loop_iteration
    dsimp only at hc ⊢
    rcases hc with hc | hc
    · simp [hc, hact]
    · simp [hc, hact, KEY_LEFTSHIFT, KEY_LEFTMETA]
  · intro hc hm hs
    unfold loop_iteration
    dsimp only at hc ⊢
    subst hc
    by_cases hv : v = KEY_PRESSED
    · refine ⟨[(s.clock, key KEY_RIGHTCTRL 1), (s.clock, syn_report)], ?_, by simp [hv], ?_⟩
      · simp [hm, hs, hv, KEY_F23, KEY_LEFTSHIFT, KEY_LEFTMETA,
          libevdev_uinput_write_event, cancel_delayed_release, pthread_cancel_join, record,
          key, syn_report, COPILOT_REPLACE_KEY]
        split_ifs <;> simp
      · intro w hw
        simp only [List.mem_cons, List.mem_singleton, List.not_mem_nil, or_false] at hw
        rcases hw with h | h <;> subst h <;>
          simp [key, syn_report, KEY_RIGHTCTRL, SYN_REPORT, KEY_LEFTMETA, KEY_LEFTSHIFT, KEY_F23]
    · refine ⟨[], ?_, by simp [hv], by simp⟩
      by_cases hr : v = KEY_RELEASED
      · cases created <;>
          simp [hm, hs, hv, hr, hact, KEY_F23, KEY_LEFTSHIFT, KEY_LEFTMETA, KEY_PRESSED,
            KEY_RELEASED, schedule_delayed_release, pthread_create, pthread_cancel_join,
            record] <;>
          split_ifs <;> rfl
      · simp [hm, hs, hv, hr, KEY_F23, KEY_LEFTSHIFT, KEY_LEFTMETA]
  · intro hc hn
    unfold loop_iteration
    dsimp only at hc ⊢
    subst hc
    have hb : (s.key_state.meta_pressed && s.key_state.shift_pressed) = false := by
      cases hm : s.key_state.meta_pressed <;> cases hs : s.key_state.shift_pressed <;>
        simp_all
    simp [hb, KEY_F23, KEY_LEFTSHIFT, KEY_LEFTMETA, event_write,
      libevdev_uinput_write_event]
  · intro h1 h2 h3
    unfold loop_iteration
    dsimp only at h1 h2 h3 ⊢
    simp [h1, h2, h3, event_write, libevdev_uinput_write_event]

/-- Witness of C3: the theorem applied in the state reached by `LeftMeta`
Pressed, `LeftShift` Pressed, `F23` Pressed, to a `LeftShift` repeat event. -/
theorem C3_suppression_witness :
    (process 300 [key KEY_LEFTMETA 1, key KEY_LEFTSHIFT 1, key KEY_F23 1]
        init).key_state.copilot_active = true ∧
      (loop_iteration 300 true (key KEY_LEFTSHIFT 2)
        (process 300 [key KEY_LEFTMETA 1, key KEY_LEFTSHIFT 1, key KEY_F23 1] init)).sink =
        (process 300 [key KEY_LEFTMETA 1, key KEY_LEFTSHIFT 1, key KEY_F23 1] init).sink :=
  ⟨rfl, (C3_suppression 300 true
    (process 300 [key KEY_LEFTMETA 1, key KEY_LEFTSHIFT 1, key KEY_F23 1] init)
    (key KEY_LEFTSHIFT 2) rfl rfl).1 (Or.inr rfl)⟩

/-! ## C6: identity without a chord -/

/-- C6: for every finite sequence of input events with no `F23` key event,
processed from the initial state, the events written to the sink are exactly
the input events in the same order, and after every prefix of the sequence
`copilot_active` is false, no call into the scheduler has been made, nothing is
pending and no timer thread exists. -/
theorem C6_identity_without_chord (delay_ms : Nat) (evs : List InputEvent)
    (h : ∀ ev ∈ evs, is_key KEY_F23 ev = false) :
    (process delay_ms evs init).sink.map Prod.snd = evs ∧
    ∀ n : Nat,
      (process delay_ms (evs.take n) init).sink.map Prod.snd = evs.take n ∧
      (process delay_ms (evs.take n) init).key_state.copilot_active = false ∧
      (process delay_ms (evs.take n) init).calls = [] ∧
      (process delay_ms (evs.take n) init).release_pending = false ∧
      (process delay_ms (evs.take n) init).release_thread = 0 ∧
      (process delay_ms (evs.take n) init).sleeping = [] := by
  have key_fact : ∀ l : List InputEvent, (∀ ev ∈ l, is_key KEY_F23 ev = false) →
      (process delay_ms l init).sink.map Prod.snd = l ∧
      (process delay_ms l init).key_state.copilot_active = false ∧
      (process delay_ms l init).calls = [] ∧
      (process delay_ms l init).release_pending = false ∧
      (process delay_ms l init).release_thread = 0 ∧
      (process delay_ms l init).sleeping = [] := by
    intro l hl
    obtain ⟨h1, h2, h3, h4, h5, _, _, h8⟩ := process_no_f23 delay_ms l init rfl hl
    refine ⟨?_, h2, h8, h3, h4, h5⟩
    rw [h1]
    simp [init, Function.comp_def]
  exact ⟨(key_fact evs h).1, fun n => key_fact (evs.take n)
    (fun ev hm => h ev (List.mem_of_mem_take hm))⟩

/-- Witness of C6: modifier presses, releases and repeats, another key and a
`SYN_REPORT`, with no `F23` event, are written unchanged. -/
theorem C6_identity_without_chord_witness :
    (process 300 [key KEY_LEFTMETA 1, key KEY_LEFTSHIFT 1, key KEY_LEFTSHIFT 2, key 30 1,
        syn_report, key KEY_LEFTMETA 0, key KEY_LEFTSHIFT 0] init).sink.map Prod.snd =
      [key KEY_LEFTMETA 1, key KEY_LEFTSHIFT 1, key KEY_LEFTSHIFT 2, key 30 1,
        syn_report, key KEY_LEFTMETA 0, key KEY_LEFTSHIFT 0] :=
  (C6_identity_without_chord 300 [key KEY_LEFTMETA 1, key KEY_LEFTSHIFT 1, key KEY_LEFTSHIFT 2,
    key 30 1, syn_report, key KEY_LEFTMETA 0, key KEY_LEFTSHIFT 0] (by decide)).1

/-! ## C7: a chord press while the chord is already active -/

/-- Counterexample to C7: after `LeftMeta` Pressed, `LeftShift` Pressed, `F23`
Pressed the chord is active with both modifiers held, and a second `F23`
Pressed writes `RightCtrl = 1` and `SYN_REPORT` once more: the sink then holds
two `RightCtrl = 1` events. -/
theorem C7_counterexample :
    (process 300 [key KEY_LEFTMETA 1, key KEY_LEFTSHIFT 1, key KEY_F23 1]
        init).key_state =
        { meta_pressed := true, shift_pressed := true, copilot_active := true } ∧
      (process 300 [key KEY_LEFTMETA 1, key KEY_LEFTSHIFT 1, key KEY_F23 1, key KEY_F23 1]
        init).sink =
        (process 300 [key KEY_LEFTMETA 1, key KEY_LEFTSHIFT 1, key KEY_F23 1] init).sink ++
          [(0, key KEY_RIGHTCTRL 1), (0, syn_report)] ∧
      count_writes (key KEY_RIGHTCTRL 1)
        (process 300 [key KEY_LEFTMETA 1, key KEY_LEFTSHIFT 1, key KEY_F23 1, key KEY_F23 1]
          init).sink = 2 := by
  decide

/-- C7, amended: in every state the program can reach in which the chord is
active and both modifiers are held, another `F23` Pressed writes
`[RightCtrl = 1, SYN_REPORT]` again (a second Pressed write, of the value the
key already has), leaves `copilot_active` true and leaves no release pending;
the call to `cancel_delayed_release` it makes finds nothing pending and no
timer thread, and changes neither. -/
theorem C7_press_while_active (delay_ms : Nat) (acts : List Action) (created : Bool)
    (hact : (run delay_ms acts init).key_state.copilot_active = true)
    (hm : (run delay_ms acts init).key_state.meta_pressed = true)
    (hs : (run delay_ms acts init).key_state.shift_pressed = true) :
    (loop_iteration delay_ms created (key KEY_F23 KEY_PRESSED) (run delay_ms acts init)).sink =
        (run delay_ms acts init).sink ++
          [((run delay_ms acts init).clock, key KEY_RIGHTCTRL 1),
            ((run delay_ms acts init).clock, syn_report)] ∧
      last_key_value KEY_RIGHTCTRL (loop_iteration delay_ms created (key KEY_F23 KEY_PRESSED)
        (run delay_ms acts init)).sink = some 1 ∧
      (loop_iteration delay_ms created (key KEY_F23 KEY_PRESSED)
        (run delay_ms acts init)).key_state.copilot_active = true ∧
      (loop_iteration delay_ms created (key KEY_F23 KEY_PRESSED)
        (run delay_ms acts init)).release_pending = false ∧
      (run delay_ms acts init).release_pending = false ∧
      (run delay_ms acts init).sleeping = [] ∧
      (loop_iteration delay_ms created (key KEY_F23 KEY_PRESSED)
        (run delay_ms acts init)).sleeping = [] ∧
      (loop_iteration delay_ms created (key KEY_F23 KEY_PRESSED)
        (run delay_ms acts init)).calls =
        (run delay_ms acts init).calls ++ [Call.cancel false] := by
  have hinv := inv_run delay_ms acts init inv_init
  have hp := hinv.active_not_pending hact
  rw [press_of_inv delay_ms created _ hinv hm hs]
  refine ⟨rfl, ?_, rfl, rfl, hp, hinv.idle_no_thread hp, rfl, by simp [hp]⟩
  simp [last_key_value_append_pair, is_key, key, syn_report, EV_KEY, EV_SYN, KEY_RIGHTCTRL,
    SYN_REPORT]

/-- Witness of C7: the theorem applied after `LeftMeta` Pressed, `LeftShift`
Pressed, `F23` Pressed. -/
theorem C7_press_while_active_witness :
    (run 300 [Action.event (key KEY_LEFTMETA 1) true, Action.event (key KEY_LEFTSHIFT 1) true,
        Action.event (key KEY_F23 1) true] init).key_state.copilot_active = true ∧
      (loop_iteration 300 true (key KEY_F23 KEY_PRESSED)
        (run 300 [Action.event (key KEY_LEFTMETA 1) true,
          Action.event (key KEY_LEFTSHIFT 1) true,
          Action.event (key KEY_F23 1) true] init)).key_state.copilot_active = true :=
  ⟨rfl, (C7_press_while_active 300
    [Action.event (key KEY_LEFTMETA 1) true, Action.event (key KEY_LEFTSHIFT 1) true,
      Action.event (key KEY_F23 1) true] true rfl rfl rfl).2.2.1⟩

/-! ## C9: shutdown with a release pending -/

/-- C10: for every 32-bit signed `v` returned by `atoi`, the delay check accepts
and continues with delay `v` if and only if `0 ≤ v ≤ 10000`; otherwise it takes
the failure exit with the message on the bounds.  In particular every negative
`v` is rejected, although the test `delay_ms < 0` is made on an unsigned
value. -/
theorem C10_delay_bound (v : Int) (hlo : -2 ^ 31 ≤ v) (hhi : v < 2 ^ 31) :
    (parse_delay v = Except.ok v.toNat ↔ 0 ≤ v ∧ v ≤ 10000) ∧
      (¬ (0 ≤ v ∧ v ≤ 10000) → parse_delay v = Except.error delay_error) ∧
      (v < 0 → parse_delay v = Except.error delay_error) := by
  have hin : 0 ≤ v ∧ v ≤ 10000 → parse_delay v = Except.ok v.toNat := by
    intro ⟨h0, h1⟩
    have hmod : v % 2 ^ 32 = v := Int.emod_eq_of_lt h0 (by omega)
    unfold parse_delay
    simp only [hmod]
    have : ¬ (v.toNat < 0 ∨ v.toNat > 10000) := by omega
    rw [if_neg this]
  have hout : ¬ (0 ≤ v ∧ v ≤ 10000) → parse_delay v = Except.error delay_error := by
    intro hn
    have hbig : (v % 2 ^ 32).toNat > 10000 := by omega
    unfold parse_delay delay_error
    simp only
    rw [if_pos (Or.inr hbig)]
  refine ⟨⟨fun h => ?_, hin⟩, hout, fun hneg => hout (by omega)⟩
  by_contra hn
  rw [hout hn] at h
  cases h

/-- Witness of C10: the default delay 300 lies within the bounds and is accepted. -/
theorem C10_delay_bound_witness :
    (parse_delay 300 = Except.ok (300 : Int).toNat ↔
        (0 : Int) ≤ 300 ∧ (300 : Int) ≤ 10000) ∧
      parse_delay (-1) = Except.error delay_error :=
  ⟨(C10_delay_bound 300 (by decide) (by decide)).1,
    (C10_delay_bound (-1) (by decide) (by decide)).2.2 (by decide)⟩

/-! ## C8: the re-press scenario, with times -/

theorem scenario_final (d t1 t2 : Nat) (h0 : 0 < t1) (h12 : t1 < t2) (h1d : t1 < d) :
    let_timers_run (run_timed d [(0, key KEY_LEFTMETA 1), (0, key KEY_LEFTSHIFT 1),
        (0, key KEY_F23 1), (0, key KEY_F23 0), (t1, key KEY_F23 1), (t2, key KEY_F23 0)]
        init) =
      { key_state := { meta_pressed := true, shift_pressed := true, copilot_active := false }
        release_pending := false
        release_thread := 2
        sleeping := []
        next_tid := 3
        clock := t2 + d
        sink := [(0, key KEY_LEFTMETA 1), (0, key KEY_LEFTSHIFT 1),
          (0, key KEY_RIGHTCTRL 1), (0, syn_report),
          (t1, key KEY_RIGHTCTRL 1), (t1, syn_report),
          (t2 + d, key KEY_RIGHTCTRL 0), (t2 + d, syn_report)]
        calls := [Call.cancel false, Call.schedule false, Call.cancel true,
          Call.schedule false] } := by
  have hnd : ¬ d ≤ t1 := by omega
  have hm1 : max 0 t1 = t1 := by omega
  have hm2 : max t1 t2 = t2 := by omega
  have hm3 : max t2 (t2 + d) = t2 + d := by omega
  simp [run_timed, init, timed_step, fire_due, set_clock, let_timers_run, loop_iteration,
    event_write, key, syn_report,
    cancel_delayed_release, schedule_delayed_release, pthread_cancel_join, pthread_create,
    delayed_release_thread, libevdev_uinput_write_event, record, timespec_ms_of,
    EV_KEY, EV_SYN, KEY_F23, KEY_LEFTMETA, KEY_LEFTSHIFT, KEY_RIGHTCTRL, KEY_PRESSED,
    KEY_RELEASED, COPILOT_REPLACE_KEY, SYN_REPORT, hnd, hm1, hm2, hm3]

/-- Counterexample to C8: with delay 300 and the second press and release at
100 and 120, the run writes `RightCtrl = 1` twice, at 0 and at 100. -/
theorem C8_counterexample :
    count_writes (key KEY_RIGHTCTRL 1)
        (let_timers_run (run_timed 300 [(0, key KEY_LEFTMETA 1), (0, key KEY_LEFTSHIFT 1),
          (0, key KEY_F23 1), (0, key KEY_F23 0), (100, key KEY_F23 1), (120, key KEY_F23 0)]
          init)).sink = 2 ∧
      (let_timers_run (run_timed 300 [(0, key KEY_LEFTMETA 1), (0, key KEY_LEFTSHIFT 1),
          (0, key KEY_F23 1), (0, key KEY_F23 0), (100, key KEY_F23 1), (120, key KEY_F23 0)]
          init)).sink =
        [(0, key KEY_LEFTMETA 1), (0, key KEY_LEFTSHIFT 1),
          (0, key KEY_RIGHTCTRL 1), (0, syn_report),
          (100, key KEY_RIGHTCTRL 1), (100, syn_report),
          (420, key KEY_RIGHTCTRL 0), (420, syn_report)] := by
  decide

/-- C8, amended: for every delay `d` and times `0 < t1 < t2` with `t1 < d`, the
run `Meta` Pressed, `Shift` Pressed, `F23` Pressed, `F23` Released at time 0,
`F23` Pressed at `t1`, `F23` Released at `t2`, timers then running to the end,
writes `RightCtrl = 1` exactly twice (at 0 and again at `t1`, when the pending
release is cancelled) and `RightCtrl = 0` exactly once, at time `t2 + d`; no
event at all is written at time `d`. -/
theorem C8_repress_scenario (d t1 t2 : Nat) (h0 : 0 < t1) (h12 : t1 < t2) (h1d : t1 < d) :
    (let_timers_run (run_timed d [(0, key KEY_LEFTMETA 1), (0, key KEY_LEFTSHIFT 1),
        (0, key KEY_F23 1), (0, key KEY_F23 0), (t1, key KEY_F23 1), (t2, key KEY_F23 0)]
        init)).sink =
      [(0, key KEY_LEFTMETA 1), (0, key KEY_LEFTSHIFT 1),
        (0, key KEY_RIGHTCTRL 1), (0, syn_report),
        (t1, key KEY_RIGHTCTRL 1), (t1, syn_report),
        (t2 + d, key KEY_RIGHTCTRL 0), (t2 + d, syn_report)] ∧
    count_writes (key KEY_RIGHTCTRL 1)
      (let_timers_run (run_timed d [(0, key KEY_LEFTMETA 1), (0, key KEY_LEFTSHIFT 1),
        (0, key KEY_F23 1), (0, key KEY_F23 0), (t1, key KEY_F23 1), (t2, key KEY_F23 0)]
        init)).sink = 2 ∧
    count_writes (key KEY_RIGHTCTRL 0)
      (let_timers_run (run_timed d [(0, key KEY_LEFTMETA 1), (0, key KEY_LEFTSHIFT 1),
        (0, key KEY_F23 1), (0, key KEY_F23 0), (t1, key KEY_F23 1), (t2, key KEY_F23 0)]
        init)).sink = 1 ∧
    (∀ w ∈ (let_timers_run (run_timed d [(0, key KEY_LEFTMETA 1), (0, key KEY_LEFTSHIFT 1),
        (0, key KEY_F23 1), (0, key KEY_F23 0), (t1, key KEY_F23 1), (t2, key KEY_F23 0)]
        init)).sink, w.2 = key KEY_RIGHTCTRL 0 → w.1 = t2 + d) ∧
    (∀ w ∈ (let_timers_run (run_timed d [(0, key KEY_LEFTMETA 1), (0, key KEY_LEFTSHIFT 1),
        (0, key KEY_F23 1), (0, key KEY_F23 0), (t1, key KEY_F23 1), (t2, key KEY_F23 0)]
        init)).sink, w.1 ≠ d) ∧
    (let_timers_run (run_timed d [(0, key KEY_LEFTMETA 1), (0, key KEY_LEFTSHIFT 1),
        (0, key KEY_F23 1), (0, key KEY_F23 0), (t1, key KEY_F23 1), (t2, key KEY_F23 0)]
        init)).sleeping = [] := by
  have hfin := scenario_final d t1 t2 h0 h12 h1d
  have hsink := congrArg State.sink hfin
  simp only at hsink
  refine ⟨hsink, ?_, ?_, ?_, ?_, ?_⟩
  · rw [hsink]
    simp [count_writes, key, syn_report, EV_KEY, EV_SYN, KEY_LEFTMETA, KEY_LEFTSHIFT,
      KEY_RIGHTCTRL, SYN_REPORT, List.count_cons]
  · rw [hsink]
    simp [count_writes, key, syn_report, EV_KEY, EV_SYN, KEY_LEFTMETA, KEY_LEFTSHIFT,
      KEY_RIGHTCTRL, SYN_REPORT, List.count_cons]
  · rw [hsink]
    intro w hw hk
    simp only [List.mem_cons, List.mem_singleton, List.not_mem_nil, or_false] at hw
    rcases hw with h | h | h | h | h | h | h | h <;> subst h <;>
      first
        | rfl
        | (exfalso; revert hk; simp [key, syn_report, EV_KEY, EV_SYN, KEY_LEFTMETA,
            KEY_LEFTSHIFT, KEY_RIGHTCTRL, SYN_REPORT])
  · rw [hsink]
    intro w hw
    simp only [List.mem_cons, List.mem_singleton, List.not_mem_nil, or_false] at hw
    rcases hw with h | h | h | h | h | h | h | h <;> subst h <;> simp only <;> omega
  · rw [hfin]

/-- Witness of C8: delay 300, second press at 100, second release at 120; the
only `RightCtrl = 0` write is at 420. -/
theorem C8_repress_scenario_witness :
    (let_timers_run (run_timed 300 [(0, key KEY_LEFTMETA 1), (0, key KEY_LEFTSHIFT 1),
        (0, key KEY_F23 1), (0, key KEY_F23 0), (100, key KEY_F23 1), (120, key KEY_F23 0)]
        init)).sink =
      [(0, key KEY_LEFTMETA 1), (0, key KEY_LEFTSHIFT 1),
        (0, key KEY_RIGHTCTRL 1), (0, syn_report),
        (100, key KEY_RIGHTCTRL 1), (100, syn_report),
        (120 + 300, key KEY_RIGHTCTRL 0), (120 + 300, syn_report)] :=
  (C8_repress_scenario 300 100 120 (by decide) (by decide) (by decide)).1

/-! ## C2: the chord release schedules the release of the replacement key -/

theorem process_quiet (d : Nat) (evs : List InputEvent) (s : State)
    (ha : s.key_state.copilot_active = false) (hno : no_chord_press d evs s = true) :
    (process d evs s).key_state.copilot_active = false ∧ same_scheduler s (process d evs s) := by
  induction evs generalizing s with
  | nil => simp [process, ha, same_scheduler]
  | cons e evs ih =>
    simp only [no_chord_press, Bool.and_eq_true, Bool.not_eq_true'] at hno
    obtain ⟨h1, p1, p2, p3, p4, p5, p6⟩ := loop_quiet d true e s ha hno.1
    obtain ⟨i2, q1, q2, q3, q4, q5, q6⟩ := ih (loop_iteration d true e s) h1 hno.2
    exact ⟨i2, q1.trans p1, q2.trans p2, q3.trans p3, q4.trans p4, q5.trans p5, q6.trans p6⟩

/-- Counterexample to C2: after `LeftMeta` Pressed, `LeftShift` Pressed, `F23`
Pressed and `LeftMeta` Released the chord is active, yet `F23` Released is
written raw, `copilot_active` stays true, and no release is scheduled or
pending. -/
theorem C2_counterexample :
    (process 300 [key KEY_LEFTMETA 1, key KEY_LEFTSHIFT 1, key KEY_F23 1, key KEY_LEFTMETA 0]
        init).key_state.copilot_active = true ∧
      (loop_iteration 300 true (key KEY_F23 KEY_RELEASED)
        (process 300 [key KEY_LEFTMETA 1, key KEY_LEFTSHIFT 1, key KEY_F23 1,
          key KEY_LEFTMETA 0] init)).sink =
        [(0, key KEY_LEFTMETA 1), (0, key KEY_LEFTSHIFT 1), (0, key KEY_RIGHTCTRL 1),
          (0, syn_report), (0, key KEY_F23 0)] ∧
      (loop_iteration 300 true (key KEY_F23 KEY_RELEASED)
        (process 300 [key KEY_LEFTMETA 1, key KEY_LEFTSHIFT 1, key KEY_F23 1,
          key KEY_LEFTMETA 0] init)).key_state.copilot_active = true ∧
      (loop_iteration 300 true (key KEY_F23 KEY_RELEASED)
        (process 300 [key KEY_LEFTMETA 1, key KEY_LEFTSHIFT 1, key KEY_F23 1,
          key KEY_LEFTMETA 0] init)).release_pending = false ∧
      (loop_iteration 300 true (key KEY_F23 KEY_RELEASED)
        (process 300 [key KEY_LEFTMETA 1, key KEY_LEFTSHIFT 1, key KEY_F23 1,
          key KEY_LEFTMETA 0] init)).calls = [Call.cancel false] := by
  decide

/-- C2, amended: in every state `s` the program can reach in which the chord is
active and both modifiers are still held, `F23` Released (thread creation
succeeding) writes nothing, clears `copilot_active`, calls
`schedule_delayed_release` with nothing pending and leaves a release pending
with one timer thread due at `clock + delay`.  If the events `evs` read next
contain no chord press, the release is still pending after them, and the
expiry of the timer then writes exactly `RightCtrl = 0` followed by
`SYN_REPORT`, stamped `clock + delay`, clears the pending flag and leaves no
timer thread. -/
theorem C2_release_schedules (delay_ms : Nat) (acts : List Action) (evs : List InputEvent)
    (s s1 s2 s3 : State)
    (hs : s = run delay_ms acts init)
    (hact : s.key_state.copilot_active = true)
    (hmeta : s.key_state.meta_pressed = true)
    (hshift : s.key_state.shift_pressed = true)
    (h1 : s1 = loop_iteration delay_ms true (key KEY_F23 KEY_RELEASED) s)
    (hno : no_chord_press delay_ms evs s1 = true)
    (h2 : s2 = process delay_ms evs s1)
    (h3 : s3 = delayed_release_thread s1.release_thread s2) :
    s1.sink = s.sink ∧
      s1.key_state.copilot_active = false ∧
      s1.release_pending = true ∧
      s1.calls = s.calls ++ [Call.schedule false] ∧
      s1.sleeping = [{ tid := s1.release_thread, wake := s.clock + delay_ms }] ∧
      s2.release_pending = true ∧
      s2.sleeping = s1.sleeping ∧
      s3.sink = s2.sink ++
        [(s.clock + delay_ms, key KEY_RIGHTCTRL 0), (s.clock + delay_ms, syn_report)] ∧
      s3.release_pending = false ∧
      s3.sleeping = [] := by
  have hinv : Inv s := hs ▸ inv_run delay_ms acts init inv_init
  have e1 := release_of_inv delay_ms s hinv hmeta hshift hact
  rw [← h1] at e1
  have a1 : s1.key_state.copilot_active = false := by rw [e1]
  have p1 : s1.release_pending = true := by rw [e1]
  have sl1 : s1.sleeping = [{ tid := s1.release_thread, wake := s.clock + delay_ms }] := by
    rw [e1]
  have c1 : s1.clock = s.clock := by rw [e1]
  obtain ⟨_, q1, _, q3, _, q5, _⟩ := process_quiet delay_ms evs s1 a1 hno
  rw [← h2] at q1 q3 q5
  have p2 : s2.release_pending = true := q1.trans p1
  have sl2 : s2.sleeping = [{ tid := s1.release_thread, wake := s.clock + delay_ms }] :=
    q3.trans sl1
  have e3 := thread_fires s2 s1.release_thread (s.clock + delay_ms) p2 sl2
  rw [← h3] at e3
  have hmax : max s2.clock (s.clock + delay_ms) = s.clock + delay_ms := by
    rw [q5, c1]; omega
  refine ⟨by rw [e1], a1, p1, by rw [e1], sl1, p2, q3, ?_, by rw [e3], by rw [e3]⟩
  rw [e3, hmax]

/-- Witness of C2: the theorem applied after `LeftMeta` Pressed, `LeftShift`
Pressed, `F23` Pressed, with `LeftShift` Released and `LeftMeta` Released read
before the timer expires. -/
theorem C2_release_schedules_witness :
    (delayed_release_thread 1
        (process 300 [key KEY_LEFTSHIFT 0, key KEY_LEFTMETA 0]
          (loop_iteration 300 true (key KEY_F23 KEY_RELEASED)
            (run 300 [Action.event (key KEY_LEFTMETA 1) true,
              Action.event (key KEY_LEFTSHIFT 1) true,
              Action.event (key KEY_F23 1) true] init)))).sink =
      (process 300 [key KEY_LEFTSHIFT 0, key KEY_LEFTMETA 0]
          (loop_iteration 300 true (key KEY_F23 KEY_RELEASED)
            (run 300 [Action.event (key KEY_LEFTMETA 1) true,
              Action.event (key KEY_LEFTSHIFT 1) true,
              Action.event (key KEY_F23 1) true] init))).sink ++
        [(0 + 300, key KEY_RIGHTCTRL 0), (0 + 300, syn_report)] :=
  (C2_release_schedules 300
    [Action.event (key KEY_LEFTMETA 1) true, Action.event (key KEY_LEFTSHIFT 1) true,
      Action.event (key KEY_F23 1) true]
    [key KEY_LEFTSHIFT 0, key KEY_LEFTMETA 0] _ _ _ _ rfl rfl rfl rfl rfl (by decide) rfl
    rfl).2.2.2.2.2.2.2.1

/-! ## C4: a new chord press cancels the pending release -/

end RemapCopilot
